import Mathlib

/-!
Shallow embedding of the Pomodoro timer and task manager
(src/pomodoro_frontend/src/App.js).

The React component state is modelled as an explicit record `AppState`;
each event handler and the interval tick callback become pure state
transformers.  JavaScript numbers are modelled as `Int` (every number the
program computes or persists on the modelled paths is an integer;
NaN/Infinity and fractional stored values are outside the model and noted
where the source guards against them with `Number.isFinite`).  Strings use
Lean `String`; `selectedTaskId` (a string or `null` in JS) is
`Option String`, with JS truthiness of that value modelled explicitly
(`null` and the empty string are falsy).
-/

namespace Pomodoro

/-- Task record as created by `addTask`:
`{ id, name, done, pomodoros }` (App.js lines 174-179). -/
structure Task where
  id : String
  name : String
  done : Bool
  pomodoros : Nat
deriving DecidableEq, Repr

/-- The component state relevant to the logic claims: the `useState` hooks
`isWorkSession`, `workDuration`, `breakDuration`, `remaining`, `tasks`,
`selectedTaskId` (App.js lines 45-55).  `isRunning` only gates whether the
interval callback fires and is not read by any transition, so it is kept
out of the record; `theme` and `taskInput` are presentation state. -/
structure AppState where
  isWorkSession : Bool
  workDuration : Int
  breakDuration : Int
  remaining : Int
  tasks : List Task
  selectedTaskId : Option String
deriving DecidableEq, Repr

/-- Constant `DEFAULT_WORK = 25 * 60` (App.js line 13). -/
def DEFAULT_WORK : Int := 25 * 60

/-- Constant `DEFAULT_BREAK = 5 * 60` (App.js line 14). -/
def DEFAULT_BREAK : Int := 5 * 60

/-- Initial hook values (App.js lines 46-55): work session, default
durations, `remaining = DEFAULT_WORK`, no tasks, no selection. -/
def initApp : AppState :=
  { isWorkSession := true
    workDuration := DEFAULT_WORK
    breakDuration := DEFAULT_BREAK
    remaining := DEFAULT_WORK
    tasks := []
    selectedTaskId := none }

/-- JS truthiness of `selectedTaskId : string | null`: `null` and the empty
string are falsy, every other string is truthy. -/
def optStrFalsy : Option String → Bool
  | none => true
  | some s => s == ""

/-- JS `String.prototype.trim`: strip leading and trailing whitespace
(structural definition over the character list, so that it evaluates
inside the kernel). -/
def jsTrim (s : String) : String :=
  String.mk
    (((s.data.dropWhile Char.isWhitespace).reverse.dropWhile Char.isWhitespace).reverse)

/-- The interval tick callback (App.js lines 108-124): if `remaining > 0`
decrement it; otherwise flip the session kind, set `remaining` to the new
session's configured duration, and — when the ending session was a work
session and a task is selected — increment the selected task's
`pomodoros` (`(t.pomodoros || 0) + 1`, which on `Nat` is `pomodoros + 1`). -/
def tick (s : AppState) : AppState :=
  if s.remaining > 0 then { s with remaining := s.remaining - 1 }
  else
    let nextIsWork := !s.isWorkSession
    let nextRemaining := if nextIsWork then s.workDuration else s.breakDuration
    let newTasks :=
      if s.isWorkSession && !(optStrFalsy s.selectedTaskId) then
        s.tasks.map fun t =>
          if some t.id = s.selectedTaskId then { t with pomodoros := t.pomodoros + 1 } else t
      else s.tasks
    { s with isWorkSession := nextIsWork, remaining := nextRemaining, tasks := newTasks }

/-- Handler `resetTimer` (App.js lines 144-147): `remaining` := the current
session's configured duration (`isRunning := false` is omitted, see
`AppState`). -/
def resetTimer (s : AppState) : AppState :=
  { s with remaining := if s.isWorkSession then s.workDuration else s.breakDuration }

/-- Handler `switchSession` (App.js lines 150-157): flip the session kind and set
`remaining` to the new session's configured duration. -/
def switchSession (s : AppState) : AppState :=
  let next := !s.isWorkSession
  { s with isWorkSession := next
           remaining := if next then s.workDuration else s.breakDuration }

/-- The Focus / Break mode buttons (App.js lines 237-241 and 247-251): set
the session kind directly and `remaining` to that session's duration. -/
def selectMode (s : AppState) (work : Bool) : AppState :=
  { s with isWorkSession := work
           remaining := if work then s.workDuration else s.breakDuration }

/-- Handler `updateDurations` (App.js lines 160-167):
`w = Math.max(1, Math.min(180, Math.floor(newWorkMin))) * 60`,
`b = Math.max(1, Math.min(60, Math.floor(newBreakMin))) * 60`, then
`remaining := isWorkSession ? w : b`.  Inputs are modelled as `Int`
(`Math.floor` is the identity on integers). -/
def updateDurations (s : AppState) (newWorkMin newBreakMin : Int) : AppState :=
  let w := max 1 (min 180 newWorkMin) * 60
  let b := max 1 (min 60 newBreakMin) * 60
  { s with workDuration := w
           breakDuration := b
           remaining := if s.isWorkSession then w else b }

/-- Handler `addTask` (App.js lines 171-183): trim the input; empty result is a
silent no-op; otherwise prepend a new task `{ id, name, done := false,
pomodoros := 0 }` and, when `selectedTaskId` is falsy, select the new id.
The generated id (`crypto.randomUUID()` or `String(Date.now())`) is passed
in as the parameter `freshId`. -/
def addTask (s : AppState) (input freshId : String) : AppState :=
  let name := jsTrim input
  if name = "" then s
  else
    let newTask : Task := { id := freshId, name := name, done := false, pomodoros := 0 }
    { s with tasks := newTask :: s.tasks
             selectedTaskId :=
               if optStrFalsy s.selectedTaskId then some freshId else s.selectedTaskId }

/-- Handler `toggleTaskDone` (App.js lines 186-188): map over the list, negating
`done` on the task whose id matches. -/
def toggleTaskDone (s : AppState) (id : String) : AppState :=
  { s with tasks := s.tasks.map fun t => if t.id = id then { t with done := !t.done } else t }

/-- Handler `deleteTask` (App.js lines 191-194): filter out tasks with the given
id; if the selection referenced that id, clear it (`null` is never equal
to a string id, hence the `Option`-level comparison). -/
def deleteTask (s : AppState) (id : String) : AppState :=
  { s with tasks := s.tasks.filter fun t => t.id ≠ id
           selectedTaskId := if s.selectedTaskId = some id then none else s.selectedTaskId }

/-- Handler `editTaskName` (App.js lines 197-199): map over the list, replacing
`name` on the task whose id matches. -/
def editTaskName (s : AppState) (id name : String) : AppState :=
  { s with tasks := s.tasks.map fun t => if t.id = id then { t with name := name } else t }

/-- Handler `selectTask` (App.js lines 202-204). -/
def selectTask (s : AppState) (id : String) : AppState :=
  { s with selectedTaskId := some id }

/-!
Persistence model.  localStorage holds three string records; the load
effect (App.js lines 58-84) parses them inside a single try/catch.  Each
record is modelled at the parse level: `missing` (key absent, so the
source string defaults to the literal given in the code), `corrupt`
(present but `JSON.parse` throws), or a parsed value of the shape the
loader inspects.  Stored JSON numbers are modelled as `Int` (so
`Number.isFinite` holds of every modelled stored number); a stored tasks
array is modelled as a list of task-shaped records, which is what the
persist effect writes. -/

/-- The `pomodoro_tasks` record: `JSON.parse(getItem(..) || '[]')`; when
missing, the fallback literal parses to the empty array.  A parsed
non-array value fails the `Array.isArray` check and leaves `tasks`
untouched. -/
inductive TasksSlot
  | missing
  | corrupt
  | arr (ts : List Task)
  | nonArray
deriving DecidableEq, Repr

/-- The `pomodoro_settings` record: `JSON.parse(getItem(..) || '{}')`.
Field access on the parsed value yields an optional number for
`workDuration` and `breakDuration`; a missing record or a parsed
non-object both yield both fields absent, so they are one constructor
apart only for clarity. -/
inductive SettingsSlot
  | missing
  | corrupt
  | obj (workDuration breakDuration : Option Int)
deriving DecidableEq, Repr

/-- The `pomodoro_state` record: `JSON.parse(getItem(..) || '{}')`, with
optional fields `isWorkSession` (kept only when a boolean, per the
`typeof` check) and `remaining` (a number; any modelled number passes
`Number.isFinite`). -/
inductive StateSlot
  | missing
  | corrupt
  | obj (isWorkSession : Option Bool) (remaining : Option Int)
deriving DecidableEq, Repr

/-- The three localStorage records (LS_KEYS, App.js lines 17-21). -/
structure Storage where
  tasksRec : TasksSlot
  settingsRec : SettingsSlot
  stateRec : StateSlot
deriving DecidableEq, Repr

/-- The catch branch of the load effect (App.js lines 78-83): reset the
durations and `remaining` to defaults; state already set before the throw
(only `tasks` can have been) is left as is. -/
def applyCatch (s : AppState) : AppState :=
  { s with workDuration := DEFAULT_WORK
           breakDuration := DEFAULT_BREAK
           remaining := DEFAULT_WORK }

/-- Guarded assignment `if (Array.isArray(savedTasks)) setTasks(savedTasks)` (App.js lines
60-61): a missing record parses to `[]` and is an array; a parsed
non-array leaves the current list.  `corrupt` never reaches this point
(the caller takes the catch branch first). -/
def applyTasksSlot : TasksSlot → List Task → List Task
  | .missing, _ => []
  | .arr ts, _ => ts
  | _, cur => cur

/-- Decode `Number(field || default)` (App.js lines 64-65): an absent field and a
stored 0 are both falsy and give the default; any other modelled integer
is finite and is kept. -/
def settingsNum : Option Int → Int → Int
  | none, d => d
  | some v, d => if v = 0 then d else v

/-- Field of the settings slot, as read by `savedSettings.workDuration`. -/
def SettingsSlot.wdField : SettingsSlot → Option Int
  | .obj w _ => w
  | _ => none

/-- Field of the settings slot, as read by `savedSettings.breakDuration`. -/
def SettingsSlot.bdField : SettingsSlot → Option Int
  | .obj _ b => b
  | _ => none

/-- Field of the state slot, as read by `savedState.isWorkSession`. -/
def StateSlot.iwField : StateSlot → Option Bool
  | .obj i _ => i
  | _ => none

/-- Field of the state slot, as read by `savedState.remaining`. -/
def StateSlot.remField : StateSlot → Option Int
  | .obj _ r => r
  | _ => none

/-- The load effect (App.js lines 58-84), with its single try/catch: the
three records are parsed in order (tasks, settings, state); the first
record that fails to parse jumps to `applyCatch`, skipping everything
after it.  On the straight path: tasks are set when the parse yields an
array; `wd`/`bd` come from `Number(field || DEFAULT)` (every modelled
number is finite, so the `Number.isFinite` filters keep them);
`isWorkSession` is set only when the stored field is a boolean;
`remaining` is the stored number when present (finite), otherwise
`savedState.isWorkSession ? wd : bd` by JS truthiness of the raw field. -/
def loadApp (stg : Storage) (s : AppState) : AppState :=
  match stg.tasksRec with
  | .corrupt => applyCatch s
  | tslot =>
    let s1 := { s with tasks := applyTasksSlot tslot s.tasks }
    match stg.settingsRec with
    | .corrupt => applyCatch s1
    | sslot =>
      let wd := settingsNum sslot.wdField DEFAULT_WORK
      let bd := settingsNum sslot.bdField DEFAULT_BREAK
      let s2 := { s1 with workDuration := wd, breakDuration := bd }
      match stg.stateRec with
      | .corrupt => applyCatch s2
      | stslot =>
        let s3 := match stslot.iwField with
          | some b => { s2 with isWorkSession := b }
          | none => s2
        match stslot.remField with
        | some r => { s3 with remaining := r }
        | none =>
          { s3 with remaining := if (stslot.iwField).getD false then wd else bd }

/-- The settings persist effect (App.js lines 87-90): stores
`{ workDuration, breakDuration }`. -/
def persistSettings (s : AppState) : SettingsSlot :=
  .obj (some s.workDuration) (some s.breakDuration)

/-- The timer-state persist effect (App.js lines 92-95): stores
`{ isWorkSession, remaining }`. -/
def persistState (s : AppState) : StateSlot :=
  .obj (some s.isWorkSession) (some s.remaining)

/-- The tasks persist effect (App.js lines 97-99): stores the full list. -/
def persistTasks (s : AppState) : TasksSlot :=
  .arr s.tasks

/-- All three records as the persist effects leave them. -/
def persistAll (s : AppState) : Storage :=
  { tasksRec := persistTasks s
    settingsRec := persistSettings s
    stateRec := persistState s }

/-- States the program's memory can hold: the initial hook values, closed
under every operation the component defines, including a load from
arbitrary storage contents. -/
inductive Reachable : AppState → Prop
  | init : Reachable initApp
  | tick {s} : Reachable s → Reachable (tick s)
  | reset {s} : Reachable s → Reachable (resetTimer s)
  | switch {s} : Reachable s → Reachable (switchSession s)
  | mode {s} (work : Bool) : Reachable s → Reachable (selectMode s work)
  | durations {s} (a b : Int) : Reachable s → Reachable (updateDurations s a b)
  | add {s} (input freshId : String) : Reachable s → Reachable (addTask s input freshId)
  | toggle {s} (id : String) : Reachable s → Reachable (toggleTaskDone s id)
  | del {s} (id : String) : Reachable s → Reachable (deleteTask s id)
  | rename {s} (id name : String) : Reachable s → Reachable (editTaskName s id name)
  | sel {s} (id : String) : Reachable s → Reachable (selectTask s id)
  | load {s} (stg : Storage) : Reachable s → Reachable (loadApp stg s)

/-- Invariant used by the round-trip claim: timer and pending remaining
are nonnegative and the durations are nonnegative. -/
def TimerNonneg (s : AppState) : Prop :=
  0 ≤ s.remaining ∧ 0 ≤ s.workDuration ∧ 0 ≤ s.breakDuration

/-- A running work-session state one second before the display reaches
zero, with the default durations. -/
def exAtOne : AppState := { initApp with remaining := 1 }

/-- A work-session state at the completion boundary with two tasks and
the first one selected. -/
def exComplete : AppState :=
  { initApp with
      remaining := 0
      tasks := [{ id := "a", name := "T1", done := false, pomodoros := 2 },
                { id := "b", name := "T2", done := true, pomodoros := 0 }]
      selectedTaskId := some "a" }

/-- Storage whose tasks record is unparseable while the settings and
timer-state records are present and well-formed. -/
def stgTasksCorrupt : Storage :=
  { tasksRec := .corrupt
    settingsRec := .obj (some 1200) (some 300)
    stateRec := .obj (some true) (some 42) }

/-- Storage whose timer-state record carries a negative remaining. -/
def stgNegRemaining : Storage :=
  { tasksRec := .missing
    settingsRec := .missing
    stateRec := .obj (some true) (some (-5)) }

/-- Work duration as the loader computes it, reading only the settings
record. -/
def loadedWd (se : SettingsSlot) : Int :=
  settingsNum se.wdField DEFAULT_WORK

/-- Break duration as the loader computes it, reading only the settings
record. -/
def loadedBd (se : SettingsSlot) : Int :=
  settingsNum se.bdField DEFAULT_BREAK

/-- Session kind as the loader computes it, reading only the timer-state
record (falling back to the current in-memory value). -/
def loadedIw (st : StateSlot) (cur : Bool) : Bool :=
  (st.iwField).getD cur

/-- Remaining seconds as the loader computes it: the stored number when
present, otherwise the work or break duration loaded from the settings
record, selected by the truthiness of the stored `isWorkSession` field. -/
def loadedRem (st : StateSlot) (se : SettingsSlot) : Int :=
  match st.remField with
  | some r => r
  | none => if (st.iwField).getD false then loadedWd se else loadedBd se

/-- A state with two tasks and the first one selected. -/
def exDel : AppState :=
  { initApp with
      tasks := [{ id := "a", name := "T1", done := false, pomodoros := 0 },
                { id := "b", name := "T2", done := false, pomodoros := 1 }]
      selectedTaskId := some "a" }

/-- The same two tasks with the second one selected. -/
def exDelB : AppState := { exDel with selectedTaskId := some "b" }

/-- A state with a single task and no selection. -/
def exSingle : AppState :=
  { initApp with tasks := [{ id := "a", name := "T1", done := false, pomodoros := 0 }] }

/-- A fully parseable storage: a stored task, a settings record with only
the work duration, and no timer-state record. -/
def stgParsed : Storage :=
  { tasksRec := .arr [{ id := "a", name := "T1", done := false, pomodoros := 2 }]
    settingsRec := .obj (some 1200) none
    stateRec := .missing }

theorem map_fixed_of_forall {f : Task → Task} :
    ∀ l : List Task, (∀ t ∈ l, f t = t) → l.map f = l := by
  intro l h
  induction l with
  | nil => rfl
  | cons a l ih =>
    have ha := h a (List.mem_cons_self a l)
    have hl := ih fun t ht => h t (List.mem_cons_of_mem a ht)
    simp [ha, hl]

theorem filter_fixed_of_forall {p : Task → Bool} :
    ∀ l : List Task, (∀ t ∈ l, p t = true) → l.filter p = l := by
  intro l h
  induction l with
  | nil => rfl
  | cons a l ih =>
    have ha := h a (List.mem_cons_self a l)
    have hl := ih fun t ht => h t (List.mem_cons_of_mem a ht)
    simp [List.filter_cons, ha, hl]

/-- C1 counterexample: in the work session with the default durations and
`remaining = 1`, a tick yields `remaining = 0` with the session kind
unchanged — not `remaining = breakDuration` with the kind flipped, as the
claim states. -/
theorem tick_at_one_counterexample :
    ¬ ((tick exAtOne).remaining = exAtOne.breakDuration ∧
       (tick exAtOne).isWorkSession = !exAtOne.isWorkSession) := by
  decide

/-- C1 (amended): the session switch happens on the tick that fires with
`remaining = 0`: that tick flips the session kind and sets `remaining` to
the other session's full configured duration.  A tick at `remaining = 1`
only decrements to 0 and leaves the session kind unchanged. -/
theorem tick_session_boundary (s : AppState) :
    (s.remaining = 0 →
      (tick s).isWorkSession = !s.isWorkSession ∧
      (tick s).remaining =
        (if s.isWorkSession then s.breakDuration else s.workDuration)) ∧
    (s.remaining = 1 →
      (tick s).isWorkSession = s.isWorkSession ∧ (tick s).remaining = 0) := by
  constructor
  · intro h
    cases hw : s.isWorkSession <;> simp [tick, h, hw]
  · intro h
    simp [tick, h]

/-- Witness for `tick_session_boundary` at the states with `remaining = 0`
and `remaining = 1`. -/
theorem tick_session_boundary_witness :
    ((tick { initApp with remaining := 0 }).isWorkSession = false ∧
     (tick { initApp with remaining := 0 }).remaining = 300) ∧
    ((tick exAtOne).isWorkSession = true ∧ (tick exAtOne).remaining = 0) := by
  constructor
  · have h := (tick_session_boundary { initApp with remaining := 0 }).1 (by decide)
    simpa using h
  · have h := (tick_session_boundary exAtOne).2 (by decide)
    simpa using h

/-- C4: `updateDurations` clamps the work duration to 1..180 minutes (in
seconds: 60..10800) and the break duration to 1..60 minutes, passes
in-range requests through unchanged, recomputes `remaining` from the new
duration of the currently active session, and leaves the session kind
(and tasks and selection) unchanged. -/
theorem updateDurations_clamps (s : AppState) (a b : Int) :
    60 ≤ (updateDurations s a b).workDuration ∧
    (updateDurations s a b).workDuration ≤ 180 * 60 ∧
    60 ≤ (updateDurations s a b).breakDuration ∧
    (updateDurations s a b).breakDuration ≤ 60 * 60 ∧
    (1 ≤ a → a ≤ 180 → (updateDurations s a b).workDuration = a * 60) ∧
    (1 ≤ b → b ≤ 60 → (updateDurations s a b).breakDuration = b * 60) ∧
    (updateDurations s a b).isWorkSession = s.isWorkSession ∧
    (updateDurations s a b).remaining =
      (if s.isWorkSession then (updateDurations s a b).workDuration
       else (updateDurations s a b).breakDuration) ∧
    (updateDurations s a b).tasks = s.tasks ∧
    (updateDurations s a b).selectedTaskId = s.selectedTaskId := by
  refine ⟨?_, ?_, ?_, ?_, ?_, ?_, rfl, rfl, rfl, rfl⟩ <;>
    simp only [updateDurations] <;> omega

/-- Witness for `updateDurations_clamps`: a request of 50 and 10 minutes
is in range and lands as 3000 and 600 seconds. -/
theorem updateDurations_clamps_witness :
    (updateDurations initApp 50 10).workDuration = 50 * 60 ∧
    (updateDurations initApp 50 10).breakDuration = 10 * 60 :=
  ⟨(updateDurations_clamps initApp 50 10).2.2.2.2.1 (by decide) (by decide),
   (updateDurations_clamps initApp 50 10).2.2.2.2.2.1 (by decide) (by decide)⟩

/-- C5: adding with an input that trims to empty is a no-op on the whole
state; adding a non-empty trimmed name prepends a new task with the fresh
id, the trimmed name, `done = false` and `pomodoros = 0`, keeping every
pre-existing task unchanged and in order; and a fresh id keeps the
id-uniqueness of the list. -/
theorem addTask_spec (s : AppState) (input freshId : String) :
    (jsTrim input = "" → addTask s input freshId = s) ∧
    (jsTrim input ≠ "" →
      (addTask s input freshId).tasks =
        { id := freshId, name := jsTrim input, done := false, pomodoros := 0 }
          :: s.tasks ∧
      (freshId ∉ s.tasks.map Task.id → (s.tasks.map Task.id).Nodup →
        ((addTask s input freshId).tasks.map Task.id).Nodup)) := by
  constructor
  · intro h
    simp [addTask, h]
  · intro h
    refine ⟨by simp [addTask, h], ?_⟩
    intro hid hnd
    simp [addTask, h, List.nodup_cons, hid, hnd]

/-- Witness for `addTask_spec`: a whitespace-only input is a no-op and
adding a real name lands at the head with a zeroed record. -/
theorem addTask_spec_witness :
    addTask initApp "   " "f" = initApp ∧
    (addTask initApp "Write report" "id1").tasks =
      [{ id := "id1", name := "Write report", done := false, pomodoros := 0 }] :=
  ⟨(addTask_spec initApp "   " "f").1 (by decide),
   ((addTask_spec initApp "Write report" "id1").2 (by decide)).1⟩

/-- C10: a successful add (non-empty trimmed name) selects the new task
when nothing was selected, and leaves an existing selection of a real
(non-empty) id unchanged. -/
theorem addTask_selection (s : AppState) (input freshId : String)
    (hne : jsTrim input ≠ "") :
    (s.selectedTaskId = none →
      (addTask s input freshId).selectedTaskId = some freshId) ∧
    (∀ id, s.selectedTaskId = some id → id ≠ "" →
      (addTask s input freshId).selectedTaskId = some id) := by
  constructor
  · intro h
    simp [addTask, hne, h, optStrFalsy]
  · intro id h hid
    simp [addTask, hne, h, optStrFalsy, hid]

/-- Witness for `addTask_selection`: from no selection the new id is
selected; from an existing selection it is kept. -/
theorem addTask_selection_witness :
    (addTask initApp "Write report" "id1").selectedTaskId = some "id1" ∧
    (addTask { initApp with selectedTaskId := some "a" } "Write report" "id1").selectedTaskId
      = some "a" :=
  ⟨(addTask_selection initApp "Write report" "id1" (by decide)).1 rfl,
   (addTask_selection { initApp with selectedTaskId := some "a" } "Write report" "id1"
      (by decide)).2 "a" rfl (by decide)⟩

/-- C2: on a completing tick (`remaining = 0`): if the ending session is a
work session with a (truthy) selected id, the list keeps its length and
every position holds its old task except that each task carrying the
selected id has its `pomodoros` raised by exactly 1; if the ending session
is a break session, or no task is selected, the task list is unchanged. -/
theorem tick_complete_credits_selected (s : AppState) (h0 : s.remaining = 0) :
    (∀ id, s.isWorkSession = true → s.selectedTaskId = some id → id ≠ "" →
      (tick s).tasks.length = s.tasks.length ∧
      ∀ i t, s.tasks.get? i = some t →
        (tick s).tasks.get? i =
          some (if t.id = id then { t with pomodoros := t.pomodoros + 1 } else t)) ∧
    ((s.isWorkSession = false ∨ optStrFalsy s.selectedTaskId = true) →
      (tick s).tasks = s.tasks) := by
  constructor
  · intro id hw hsel hne
    have hfalsy : optStrFalsy (some id) = false := by
      simp [optStrFalsy, hne]
    constructor
    · simp [tick, h0, hw, hsel, hfalsy]
    · intro i t ht
      simp [tick, h0, hw, hsel, hfalsy, List.get?_map, ht]
      refine ⟨t, ?_, rfl⟩
      simpa [List.get?_eq_getElem?] using ht
  · intro hcase
    rcases hcase with hw | hf
    · simp [tick, h0, hw]
    · simp [tick, h0, hf]

/-- Witness for `tick_complete_credits_selected`: completing a work
session in `exComplete` raises the selected task's count from 2 to 3 and
leaves the other task untouched. -/
theorem tick_complete_credits_selected_witness :
    (tick exComplete).tasks.get? 0 =
      some { id := "a", name := "T1", done := false, pomodoros := 3 } ∧
    (tick exComplete).tasks.get? 1 =
      some { id := "b", name := "T2", done := true, pomodoros := 0 } := by
  have h := (tick_complete_credits_selected exComplete (by decide)).1 "a"
    (by decide) (by decide) (by decide)
  constructor
  · have h0 := h.2 0 { id := "a", name := "T1", done := false, pomodoros := 2 } (by decide)
    simpa using h0
  · have h1 := h.2 1 { id := "b", name := "T2", done := true, pomodoros := 0 } (by decide)
    simpa using h1

/-- C6: deleting the task whose id is the current selection removes every
task with that id, keeps every other task, clears the selection, and a
subsequent tick (at any remaining value) then modifies no task; deleting
an id different from the selection leaves the selection unchanged. -/
theorem deleteTask_selection (s : AppState) (id : String) :
    (s.selectedTaskId = some id →
      (deleteTask s id).selectedTaskId = none ∧
      (∀ t ∈ (deleteTask s id).tasks, t.id ≠ id) ∧
      (∀ t ∈ s.tasks, t.id ≠ id → t ∈ (deleteTask s id).tasks) ∧
      (∀ r : Int, (tick { deleteTask s id with remaining := r }).tasks
          = (deleteTask s id).tasks)) ∧
    (s.selectedTaskId ≠ some id → (deleteTask s id).selectedTaskId = s.selectedTaskId) := by
  constructor
  · intro hsel
    refine ⟨by simp [deleteTask, hsel], ?_, ?_, ?_⟩
    · intro t ht
      simp only [deleteTask, List.mem_filter] at ht
      simpa using ht.2
    · intro t ht hne
      simp only [deleteTask, List.mem_filter]
      exact ⟨ht, by simpa using hne⟩
    · intro r
      have hsel' : (deleteTask s id).selectedTaskId = none := by simp [deleteTask, hsel]
      by_cases hr : (0 : Int) < r
      · simp [tick, hr]
      · simp [tick, hr, hsel', optStrFalsy]
  · intro hne
    simp [deleteTask, hne]

/-- Witness for `deleteTask_selection`: deleting the selected task of
`exDel` clears the selection and a completing tick afterwards changes no
task; deleting a non-selected id in `exDelB` keeps the selection. -/
theorem deleteTask_selection_witness :
    (deleteTask exDel "a").selectedTaskId = none ∧
    (tick { deleteTask exDel "a" with remaining := 0 }).tasks
      = (deleteTask exDel "a").tasks ∧
    (deleteTask exDelB "a").selectedTaskId = some "b" := by
  have h := (deleteTask_selection exDel "a").1 (by decide)
  exact ⟨h.1, h.2.2.2 0, by
    have h2 := (deleteTask_selection exDelB "a").2 (by decide)
    simpa using h2⟩

/-- C7: the task operations are plain total functions of the embedding
(no error results), and toggling, deleting, or renaming an id that occurs
nowhere in the task list leaves the task list unchanged. -/
theorem taskOps_nonexistent_id_noop (s : AppState) (id name : String)
    (h : id ∉ s.tasks.map Task.id) :
    (toggleTaskDone s id).tasks = s.tasks ∧
    (deleteTask s id).tasks = s.tasks ∧
    (editTaskName s id name).tasks = s.tasks := by
  have hne : ∀ t ∈ s.tasks, t.id ≠ id := by
    intro t ht heq
    exact h (heq ▸ List.mem_map_of_mem Task.id ht)
  refine ⟨?_, ?_, ?_⟩
  · exact map_fixed_of_forall s.tasks fun t ht => by simp [hne t ht]
  · exact filter_fixed_of_forall s.tasks fun t ht => by simp [hne t ht]
  · exact map_fixed_of_forall s.tasks fun t ht => by simp [hne t ht]

/-- Witness for `taskOps_nonexistent_id_noop` on `exSingle` with an id
that is not in the list. -/
theorem taskOps_nonexistent_id_noop_witness :
    (toggleTaskDone exSingle "zz").tasks = exSingle.tasks ∧
    (deleteTask exSingle "zz").tasks = exSingle.tasks ∧
    (editTaskName exSingle "zz" "N").tasks = exSingle.tasks :=
  taskOps_nonexistent_id_noop exSingle "zz" "N" (by decide)

theorem loadApp_char (stg : Storage) (s : AppState) :
    (stg.tasksRec ≠ .corrupt → stg.settingsRec ≠ .corrupt → stg.stateRec ≠ .corrupt →
      loadApp stg s =
        { isWorkSession := loadedIw stg.stateRec s.isWorkSession
          workDuration := loadedWd stg.settingsRec
          breakDuration := loadedBd stg.settingsRec
          remaining := loadedRem stg.stateRec stg.settingsRec
          tasks := applyTasksSlot stg.tasksRec s.tasks
          selectedTaskId := s.selectedTaskId }) ∧
    (stg.tasksRec = .corrupt → loadApp stg s = applyCatch s) ∧
    (stg.tasksRec ≠ .corrupt → stg.settingsRec = .corrupt →
      loadApp stg s = applyCatch { s with tasks := applyTasksSlot stg.tasksRec s.tasks }) ∧
    (stg.tasksRec ≠ .corrupt → stg.settingsRec ≠ .corrupt → stg.stateRec = .corrupt →
      loadApp stg s = applyCatch { s with tasks := applyTasksSlot stg.tasksRec s.tasks }) := by
  obtain ⟨t, se, st⟩ := stg
  refine ⟨?_, ?_, ?_, ?_⟩
  · intro ht hs hst
    rcases st with _ | _ | ⟨iw, rem⟩
    · cases t <;> cases se <;>
        first
          | exact absurd rfl ht
          | exact absurd rfl hs
          | rfl
    · exact absurd rfl hst
    · cases iw <;> cases rem <;> cases t <;> cases se <;>
        first
          | exact absurd rfl ht
          | exact absurd rfl hs
          | rfl
  · intro ht
    cases ht
    rfl
  · intro ht hs
    cases hs
    cases t <;> first | exact absurd rfl ht | rfl
  · intro ht hs hst
    cases hst
    cases t <;> cases se <;>
      first
        | exact absurd rfl ht
        | exact absurd rfl hs
        | rfl

theorem settingsNum_ne_zero (f : Option Int) (d : Int) (hd : d ≠ 0) :
    settingsNum f d ≠ 0 := by
  cases f with
  | none => simpa [settingsNum] using hd
  | some v => by_cases hv : v = 0 <;> simp [settingsNum, hv, hd]

theorem loadApp_durations_ne_zero (stg : Storage) (s : AppState) :
    (loadApp stg s).workDuration ≠ 0 ∧ (loadApp stg s).breakDuration ≠ 0 := by
  obtain ⟨hA, hB, hC, hD⟩ := loadApp_char stg s
  by_cases ht : stg.tasksRec = .corrupt
  · rw [hB ht]
    constructor <;> norm_num [applyCatch, DEFAULT_WORK, DEFAULT_BREAK]
  · by_cases hs : stg.settingsRec = .corrupt
    · rw [hC ht hs]
      constructor <;> norm_num [applyCatch, DEFAULT_WORK, DEFAULT_BREAK]
    · by_cases hst : stg.stateRec = .corrupt
      · rw [hD ht hs hst]
        constructor <;> norm_num [applyCatch, DEFAULT_WORK, DEFAULT_BREAK]
      · rw [hA ht hs hst]
        refine ⟨?_, ?_⟩ <;> simp only [loadedWd, loadedBd] <;>
          exact settingsNum_ne_zero _ _ (by decide)

theorem tick_preserves_durations (s : AppState) :
    (tick s).workDuration = s.workDuration ∧ (tick s).breakDuration = s.breakDuration := by
  unfold tick
  split <;> exact ⟨rfl, rfl⟩

theorem reachable_durations_ne_zero {s : AppState} (h : Reachable s) :
    s.workDuration ≠ 0 ∧ s.breakDuration ≠ 0 := by
  induction h with
  | init => refine ⟨?_, ?_⟩ <;> decide
  | tick h ih =>
    rcases tick_preserves_durations _ with ⟨h1, h2⟩
    rw [h1, h2]
    exact ih
  | reset h ih => exact ih
  | switch h ih => exact ih
  | mode w h ih => exact ih
  | durations a b h ih =>
    constructor
    · show max 1 (min 180 a) * 60 ≠ 0
      omega
    · show max 1 (min 60 b) * 60 ≠ 0
      omega
  | add input freshId h ih =>
    simp only [addTask]
    split <;> exact ih
  | toggle id h ih => exact ih
  | del id h ih => exact ih
  | rename id name h ih => exact ih
  | sel id h ih => exact ih
  | load stg h ih => exact loadApp_durations_ne_zero stg _

/-- C3 counterexample: with an unparseable tasks record, a settings record
storing `workDuration = 1200`, and a timer-state record storing
`remaining = 42`, the load installs neither stored value (both fall to
defaults), so a malformed record does block the other records. -/
theorem load_independence_counterexample :
    (loadApp stgTasksCorrupt initApp).workDuration ≠ 1200 ∧
    (loadApp stgTasksCorrupt initApp).remaining ≠ 42 := by
  decide

/-- C3 (amended): the three records are parsed in order (tasks, settings,
timer state) inside a single error handler.  When every present record
parses, each in-memory component is determined by its own record alone
(remaining also reads the freshly loaded durations when its own field is
absent), so missing or wrong-shape records degrade independently.  A
record that fails to parse aborts the sequence: records after it are
ignored and the durations and remaining are reset to the defaults, while
a task list loaded before the failure is kept. -/
theorem load_per_record_behavior (stg : Storage) (s : AppState) :
    (stg.tasksRec ≠ .corrupt → stg.settingsRec ≠ .corrupt → stg.stateRec ≠ .corrupt →
      loadApp stg s =
        { isWorkSession := loadedIw stg.stateRec s.isWorkSession
          workDuration := loadedWd stg.settingsRec
          breakDuration := loadedBd stg.settingsRec
          remaining := loadedRem stg.stateRec stg.settingsRec
          tasks := applyTasksSlot stg.tasksRec s.tasks
          selectedTaskId := s.selectedTaskId }) ∧
    (stg.tasksRec = .corrupt → loadApp stg s = applyCatch s) ∧
    (stg.tasksRec ≠ .corrupt → stg.settingsRec = .corrupt →
      loadApp stg s = applyCatch { s with tasks := applyTasksSlot stg.tasksRec s.tasks }) ∧
    (stg.tasksRec ≠ .corrupt → stg.settingsRec ≠ .corrupt → stg.stateRec = .corrupt →
      loadApp stg s = applyCatch { s with tasks := applyTasksSlot stg.tasksRec s.tasks }) :=
  loadApp_char stg s

/-- Witness for `load_per_record_behavior`: loading `stgParsed` (parseable
tasks and settings, missing timer state) lands the stored task and work
duration, defaults the break duration, keeps the work session, and falls
back to the loaded break duration for remaining. -/
theorem load_per_record_behavior_witness :
    loadApp stgParsed initApp =
      { isWorkSession := true
        workDuration := 1200
        breakDuration := 300
        remaining := 300
        tasks := [{ id := "a", name := "T1", done := false, pomodoros := 2 }]
        selectedTaskId := none } := by
  have h := (load_per_record_behavior stgParsed initApp).1 (by decide) (by decide) (by decide)
  simpa using h

/-- C8: persisting the three records of any state the program's memory can
hold (any `Reachable` state) and then running the load procedure on them
reproduces the same settings, timer state, and task list. -/
theorem persist_load_roundtrip (s s0 : AppState) (h : Reachable s) :
    (loadApp (persistAll s) s0).tasks = s.tasks ∧
    (loadApp (persistAll s) s0).workDuration = s.workDuration ∧
    (loadApp (persistAll s) s0).breakDuration = s.breakDuration ∧
    (loadApp (persistAll s) s0).isWorkSession = s.isWorkSession ∧
    (loadApp (persistAll s) s0).remaining = s.remaining := by
  obtain ⟨hw, hb⟩ := reachable_durations_ne_zero h
  refine ⟨?_, ?_, ?_, ?_, ?_⟩ <;>
    simp [loadApp, persistAll, persistTasks, persistSettings, persistState,
      applyTasksSlot, settingsNum, SettingsSlot.wdField, SettingsSlot.bdField,
      StateSlot.iwField, StateSlot.remField, hw, hb]

/-- Witness for `persist_load_roundtrip` at the reachable state obtained
by adding one task to the initial state. -/
theorem persist_load_roundtrip_witness :
    (loadApp (persistAll (addTask initApp "Write report" "id1")) initApp).tasks
      = (addTask initApp "Write report" "id1").tasks ∧
    (loadApp (persistAll (addTask initApp "Write report" "id1")) initApp).workDuration
      = (addTask initApp "Write report" "id1").workDuration ∧
    (loadApp (persistAll (addTask initApp "Write report" "id1")) initApp).breakDuration
      = (addTask initApp "Write report" "id1").breakDuration ∧
    (loadApp (persistAll (addTask initApp "Write report" "id1")) initApp).isWorkSession
      = (addTask initApp "Write report" "id1").isWorkSession ∧
    (loadApp (persistAll (addTask initApp "Write report" "id1")) initApp).remaining
      = (addTask initApp "Write report" "id1").remaining :=
  persist_load_roundtrip (addTask initApp "Write report" "id1") initApp
    (Reachable.add "Write report" "id1" Reachable.init)

/-- C9 counterexample: loading a timer-state record that stores
`remaining = -5` produces a reachable state with negative remaining, so
remaining ≥ 0 is not preserved by the load operation. -/
theorem load_negative_remaining_counterexample :
    Reachable (loadApp stgNegRemaining initApp) ∧
    (loadApp stgNegRemaining initApp).remaining < 0 :=
  ⟨Reachable.load stgNegRemaining Reachable.init, by decide⟩

/-- C9 (amended): every listed operation except load preserves
nonnegative remaining (together with nonnegative configured durations):
tick, reset, switch, direct mode select, and duration update. -/
theorem nonload_ops_preserve_nonneg (s : AppState) (h : TimerNonneg s) :
    TimerNonneg (tick s) ∧ TimerNonneg (resetTimer s) ∧ TimerNonneg (switchSession s) ∧
    (∀ w, TimerNonneg (selectMode s w)) ∧
    (∀ a b, TimerNonneg (updateDurations s a b)) := by
  obtain ⟨hr, hw, hb⟩ := h
  refine ⟨?_, ?_, ?_, ?_, ?_⟩
  · unfold TimerNonneg
    simp only [tick]
    split
    · refine ⟨?_, hw, hb⟩
      show 0 ≤ s.remaining - 1
      omega
    · refine ⟨?_, hw, hb⟩
      show 0 ≤ if !s.isWorkSession then s.workDuration else s.breakDuration
      split <;> assumption
  · refine ⟨?_, hw, hb⟩
    show 0 ≤ if s.isWorkSession then s.workDuration else s.breakDuration
    split <;> assumption
  · refine ⟨?_, hw, hb⟩
    show 0 ≤ if !s.isWorkSession then s.workDuration else s.breakDuration
    split <;> assumption
  · intro w
    refine ⟨?_, hw, hb⟩
    show 0 ≤ if w then s.workDuration else s.breakDuration
    split <;> assumption
  · intro a b
    refine ⟨?_, ?_, ?_⟩
    · show 0 ≤ if s.isWorkSession then max 1 (min 180 a) * 60 else max 1 (min 60 b) * 60
      split <;> omega
    · show 0 ≤ max 1 (min 180 a) * 60
      omega
    · show 0 ≤ max 1 (min 60 b) * 60
      omega

/-- Witness for `nonload_ops_preserve_nonneg` at the initial state, with
the mode select at break and a duration update of 50 and 10 minutes. -/
theorem nonload_ops_preserve_nonneg_witness :
    TimerNonneg (tick initApp) ∧ TimerNonneg (resetTimer initApp) ∧
    TimerNonneg (switchSession initApp) ∧ TimerNonneg (selectMode initApp false) ∧
    TimerNonneg (updateDurations initApp 50 10) := by
  have h := nonload_ops_preserve_nonneg initApp (by refine ⟨?_, ?_, ?_⟩ <;> decide)
  exact ⟨h.1, h.2.1, h.2.2.1, h.2.2.2.1 false, h.2.2.2.2 50 10⟩

end Pomodoro
